import Mathlib

/-!
Shallow embedding of the pygskit repository (MedGenOL/pygskit).

The repository is a set of thin wrappers around the Hail genomics framework:
path/extension validators, archive helpers, column reordering for matrix
tables, and combine/convert operations.  Pure Python functions are translated
into Lean functions; file-system dependent code is parameterised by an
explicit file-system model; calls into the external Hail framework are
modelled by the documented semantics of the invoked primitive (union by rows
requires identical column keys in identical order, union by columns
concatenates the columns and inner-joins the rows on their keys,
repartitioning does not change logical contents).

Python exceptions are modelled by an `Except PyError` result; the distinct
standard Python error kinds used by the sources each get a constructor.
-/

/-- The Python exception kinds raised by the pygskit sources
(`FileNotFoundError`, `PermissionError`, `NotADirectoryError`, `ValueError`,
`IndexError`), each carrying its message. -/
inductive PyError where
  | fileNotFoundError (msg : String)
  | permissionError (msg : String)
  | notADirectoryError (msg : String)
  | valueError (msg : String)
  | indexError (msg : String)
  deriving Repr, DecidableEq

/-- `GVCF_EXTENSION` from `pygskit/gskit/constants.py`. -/
def GVCF_EXTENSION : String := ".g.vcf.gz"

/-- `GVCF_EXTENSION_TBI` from `pygskit/gskit/constants.py`. -/
def GVCF_EXTENSION_TBI : String := GVCF_EXTENSION ++ ".tbi"

/-- `VDS_EXTENSION` from `pygskit/gskit/constants.py`. -/
def VDS_EXTENSION : String := ".vds"

/-- A model of the file system as observed by `pygskit/gskit/file_utils.py`
through the `os`, `glob` and `os.path` modules: which paths exist, which are
files/directories, which are readable (`os.access(path, os.R_OK)`), what a
glob search pattern matches, what `os.path.abspath` returns, and what
`os.listdir` returns for a directory. -/
structure FileSystem where
  pathExists : String → Bool
  isFile : String → Bool
  isDir : String → Bool
  readable : String → Bool
  glob : String → List String
  abspath : String → String
  listdir : String → List String

/-- Python's `str.endswith(suffix)`, on the character content of the
strings. -/
def py_endswith (s suffix : String) : Bool := List.isSuffixOf suffix.data s.data

/-- Python's negative-end slice `s[:-n]`, on the character content. -/
def py_drop_right (s : String) (n : Nat) : String :=
  String.mk (s.data.take (s.data.length - n))

/-- `os.path.join(a, b)` for the simple two-argument uses in the sources. -/
def os_path_join (a b : String) : String := a ++ "/" ++ b

/-- `os.path.basename(p)`: the final path component. -/
def os_path_basename (p : String) : String := (p.splitOn "/").getLastD ""

/-- `check_path_exists_and_readable` from `pygskit/gskit/file_utils.py`:
raises `FileNotFoundError` if the path does not exist or is neither a file
nor a directory, `PermissionError` if it is not readable, and otherwise
returns the path. -/
def check_path_exists_and_readable (fs : FileSystem) (path : String) :
    Except PyError String :=
  if fs.pathExists path = false then
    .error (.fileNotFoundError ("File or directory not found: " ++ path))
  else if (fs.isFile path || fs.isDir path) = false then
    .error (.fileNotFoundError ("Path is not a valid file or directory: " ++ path))
  else if fs.readable path = false then
    .error (.permissionError ("File or directory is not readable: " ++ path))
  else
    .ok path

/-- The body of the `for filepath in matching_files` loop of
`validate_vcfs_paths` (`pygskit/gskit/file_utils.py`, lines 79-96) for one
file: make the path absolute, check the GVCF suffix, check the GVCF file
itself, then check the paired `.tbi` index file obtained by replacing the
GVCF extension with the TBI extension. -/
def validate_gvcf_file (fs : FileSystem) (filepath : String) :
    Except PyError String :=
  let abs_path := fs.abspath filepath
  if py_endswith abs_path GVCF_EXTENSION = false then
    .error (.valueError ("File does not end with " ++ GVCF_EXTENSION ++ ": " ++ abs_path))
  else do
    let _ ← check_path_exists_and_readable fs abs_path
    let base := py_drop_right abs_path GVCF_EXTENSION.length
    let tbi_path := base ++ GVCF_EXTENSION_TBI
    let _ ← check_path_exists_and_readable fs tbi_path
    .ok abs_path

/-- The accumulation loop of `validate_vcfs_paths`: validate each matched
file in order, collecting the absolute paths; the first failure aborts. -/
def validate_gvcf_files (fs : FileSystem) : List String → Except PyError (List String)
  | [] => .ok []
  | f :: rest => do
    let p ← validate_gvcf_file fs f
    let ps ← validate_gvcf_files fs rest
    .ok (p :: ps)

/-- `validate_vcfs_paths` from `pygskit/gskit/file_utils.py`: check the
directory, glob for `*{GVCF_EXTENSION}` (or a caller-supplied pattern), and
validate every matched file. -/
def validate_vcfs_paths (fs : FileSystem) (directory : String)
    (pattern : Option String) : Except PyError (List String) :=
  let pat := pattern.getD ("*" ++ GVCF_EXTENSION)
  if fs.isDir directory = false then
    .error (.notADirectoryError ("Not a valid directory: " ++ directory))
  else
    let search_pattern := os_path_join directory pat
    let matching_files := fs.glob search_pattern
    validate_gvcf_files fs matching_files

/-- The `Union[str, List[str]]` argument type of `validate_vds_paths`. -/
inductive StrOrList where
  | str (s : String)
  | list (l : List String)

/-- The `for entry in os.listdir(vdses)` loop of `validate_vds_paths`
(`pygskit/gskit/file_utils.py`, lines 129-135): entries that are not
directories are skipped; directory entries are checked for readability and
for the VDS suffix and collected as full paths. -/
def validate_vds_entries (fs : FileSystem) (vdses : String) :
    List String → Except PyError (List String)
  | [] => .ok []
  | entry :: rest =>
    let full_path := os_path_join vdses entry
    if fs.isDir full_path then do
      let _ ← check_path_exists_and_readable fs full_path
      if py_endswith entry VDS_EXTENSION = false then
        .error (.valueError ("Directory does not end with " ++ VDS_EXTENSION ++ ": " ++ full_path))
      else do
        let ps ← validate_vds_entries fs vdses rest
        .ok (full_path :: ps)
    else
      validate_vds_entries fs vdses rest

/-- The `for path in vdses` loop of the list branch of `validate_vds_paths`
(`pygskit/gskit/file_utils.py`, lines 138-145). -/
def validate_vds_list (fs : FileSystem) : List String → Except PyError (List String)
  | [] => .ok []
  | path :: rest =>
    if fs.isDir path = false then
      .error (.notADirectoryError ("Not a directory: " ++ path))
    else do
      let _ ← check_path_exists_and_readable fs path
      let base_name := os_path_basename path
      if py_endswith base_name VDS_EXTENSION = false then
        .error (.valueError ("Directory does not end with " ++ VDS_EXTENSION ++ ": " ++ path))
      else do
        let ps ← validate_vds_list fs rest
        .ok (path :: ps)

/-- `validate_vds_paths` from `pygskit/gskit/file_utils.py`: validates VDS
directories given either as a container directory or as a list of paths. -/
def validate_vds_paths (fs : FileSystem) (vdses : StrOrList) :
    Except PyError (List String) :=
  match vdses with
  | .str s =>
    if fs.isDir s = false then
      .error (.notADirectoryError ("Not a directory: " ++ s))
    else
      validate_vds_entries fs s (fs.listdir s)
  | .list l => validate_vds_list fs l

/-- A directory tree for the archive helpers: the files present, each as a
path given by its components together with its byte contents (modelled as a
string).  `os.walk` over a source directory enumerates exactly the files
whose component path extends the source directory's components. -/
structure FsTree where
  files : List (List String × String)
  deriving Repr, DecidableEq

/-- Whether a component path lies under a directory's component path. -/
def pathUnder (dir p : List String) : Bool := p.take dir.length == dir

/-- The files enumerated by `os.walk(source_dir)` (paired with contents). -/
def os_walk_files (tree : FsTree) (src : List String) :
    List (List String × String) :=
  tree.files.filter (fun f => pathUnder src f.1)

/-- `os.path.relpath(file_path, source_dir)` on component paths, for files
lying under `source_dir`. -/
def os_path_relpath (src p : List String) : List String := p.drop src.length

/-- A ZIP archive as written by `zipfile.ZipFile`: the archived entries,
each an arcname (relative component path) with the file's contents. -/
structure ZipArchive where
  entries : List (List String × String)
  deriving Repr, DecidableEq

/-- `compress_files` from `pygskit/gskit/file_utils.py`: walk `source_dir`,
store every file under its path relative to `source_dir` together with its
contents, and, when `remove_originals` is set, remove the source directory
tree afterwards.  Returns the written archive and the resulting tree. -/
def compress_files (tree : FsTree) (source_dir : List String)
    (remove_originals : Bool) : ZipArchive × FsTree :=
  let archive : ZipArchive :=
    ⟨(os_walk_files tree source_dir).map
      (fun f => (os_path_relpath source_dir f.1, f.2))⟩
  let tree' : FsTree :=
    if remove_originals then
      ⟨tree.files.filter (fun f => !pathUnder source_dir f.1)⟩
    else tree
  (archive, tree')

/-- `decompress_files` from `pygskit/gskit/file_utils.py`: extract every
archive entry below `extract_to`, and, when `remove_originals` is set, the
archive file itself is removed afterwards (the archive file is not part of
the modelled tree, so only the extraction is visible here). -/
def decompress_files (tree : FsTree) (archive : ZipArchive)
    (extract_to : List String) : FsTree :=
  ⟨tree.files ++ archive.entries.map (fun e => (extract_to ++ e.1, e.2))⟩

/-- A Hail `MatrixTable` as observed by this repository: an ordered list of
row keys, an ordered list of column keys (sample ids), and the entry data
keyed by row key and column key. -/
structure MatrixTable where
  rows : List Nat
  cols : List String
  entries : Nat → String → Int

instance : Inhabited MatrixTable := ⟨⟨[], [], fun _ _ => 0⟩⟩

/-- Models `mt.add_col_index().index_cols(ref_mt.col_key).col_idx.collect()`
from `sort_mts_cols` (`pygskit/gskit/utils.py`, line 79): for every column
key of the reference table, in the reference table's column order, the
position of the column with that key in `mt`. -/
def index_cols_col_idx_collect (mt ref_mt : MatrixTable) : List Nat :=
  ref_mt.cols.map (fun k => mt.cols.indexOf k)

/-- Hail's `MatrixTable.choose_cols(new_order)`: keep only the columns at
the given positions, in the given order (entry data is keyed by column key
and therefore moves with its column). -/
def choose_cols (mt : MatrixTable) (new_order : List Nat) : MatrixTable :=
  { mt with cols := new_order.map (fun i => mt.cols.getD i "") }

/-- Python's `enumerate`, starting at a given index. -/
def pyEnumerateFrom {α : Type} : Nat → List α → List (Nat × α)
  | _, [] => []
  | i, a :: t => (i, a) :: pyEnumerateFrom (i + 1) t

/-- `sort_mts_cols` from `pygskit/gskit/utils.py`: raises `IndexError` when
`ref_index` is out of range; otherwise returns a new list in which the
reference table is passed through unchanged and every other table has its
columns reordered, via `choose_cols`, to the positions its columns occupy
in the reference table's column order. -/
def sort_mts_cols (mts : List MatrixTable) (ref_index : Int) :
    Except PyError (List MatrixTable) :=
  if 0 ≤ ref_index ∧ ref_index < (mts.length : Int) then
    let ref_mt := mts.getD ref_index.toNat default
    .ok ((pyEnumerateFrom 0 mts).map (fun p =>
      if (p.1 : Int) = ref_index then p.2
      else choose_cols p.2 (index_cols_col_idx_collect p.2 ref_mt)))
  else
    .error (.indexError "ref_index is out of range for the provided list of matrix tables.")

/-- Hail's `MatrixTable.union_rows` on two tables: defined exactly when both
tables have the same column keys in the same order (Hail raises otherwise;
this repository's `sort_mts_cols` exists to establish that precondition).
The result stacks the row keys and takes each entry from the input that owns
the row. -/
def union_rows (m1 m2 : MatrixTable) : Option MatrixTable :=
  if m1.cols = m2.cols then
    some ⟨m1.rows ++ m2.rows, m1.cols,
      fun r c => if r ∈ m1.rows then m1.entries r c else m2.entries r c⟩
  else none

/-- Hail's `MatrixTable.union_cols` on two tables: the columns are
concatenated and the rows are joined on their keys with the default
`row_join_type=inner`, so the result keeps exactly the row keys present in
both inputs (possibly none) and always produces a dataset. -/
def union_cols (m1 m2 : MatrixTable) : MatrixTable :=
  ⟨m1.rows.filter (fun r => decide (r ∈ m2.rows)), m1.cols ++ m2.cols,
    fun r c => if c ∈ m1.cols then m1.entries r c else m2.entries r c⟩

/-- Hail's `MatrixTable.repartition(n)`: changes only the physical
partitioning, never the logical rows/columns/entries. -/
def repartition (mt : MatrixTable) (_n : Nat) : MatrixTable := mt

/-- `combine_matrix_table_rows` from `pygskit/gskit/combiners.py`: read each
MatrixTable path, combine them with Hail's `union_rows` (which needs at
least one table and identical column keys), optionally repartition, and
return the table that is written to the output path.  `read` models
`hl.read_matrix_table`. -/
def combine_matrix_table_rows (read : String → MatrixTable)
    (mt_paths : List String) (n_partitions : Nat) : Option MatrixTable := do
  let combined ← match mt_paths.map read with
    | [] => none
    | m :: rest => rest.foldlM union_rows m
  pure (if n_partitions ≠ 0 then repartition combined n_partitions else combined)

/-- `combine_matrix_table_cols` from `pygskit/gskit/combiners.py`: as
`combine_matrix_table_rows` but with Hail's `union_cols`. -/
def combine_matrix_table_cols (read : String → MatrixTable)
    (mt_paths : List String) (n_partitions : Nat) : Option MatrixTable := do
  let combined ← match mt_paths.map read with
    | [] => none
    | m :: rest => some (rest.foldl union_cols m)
  pure (if n_partitions ≠ 0 then repartition combined n_partitions else combined)

/-- `combine_gvcfs` from `pygskit/gskit/combiners.py`: raises `ValueError`
when neither a GVCF directory nor a list of VDS paths is provided (Python
truthiness: empty string and empty list), otherwise validates whichever
inputs were given and hands the validated path lists to Hail's combiner.
`run_combiner` models `hl.vds.new_combiner(...).run()` producing the output
dataset; quantifying over it expresses that no combine work happens on the
error paths. -/
def combine_gvcfs {α : Type} (fs : FileSystem)
    (run_combiner : List String → List String → α)
    (gvcf_dir : String) (vdses : List String) : Except PyError α :=
  if gvcf_dir = "" ∧ vdses = [] then
    .error (.valueError "Either GVCF files or VDS files must be provided.")
  else do
    let validated_gvcfs ←
      if gvcf_dir ≠ "" then validate_vcfs_paths fs gvcf_dir none else .ok []
    let validated_vdses ←
      if vdses ≠ [] then validate_vds_paths fs (.list vdses) else .ok []
    .ok (run_combiner validated_gvcfs validated_vdses)

/-- `combine_vdses` from `pygskit/gskit/combiners.py`: raises `ValueError`
on a missing container directory, `NotADirectoryError` when the path is not
a directory, validates the contained VDS directories, raises `ValueError`
when no valid VDS directory is found, and otherwise unions the rows of the
read datasets.  `union_all` models
`hl.vds.VariantDataset.union_rows(*vdses)` plus validation and writing. -/
def combine_vdses {α : Type} (fs : FileSystem) (union_all : List String → α)
    (vdses_dir : String) : Except PyError α :=
  if vdses_dir = "" then
    .error (.valueError "No VDS directory provided.")
  else if fs.isDir vdses_dir = false then
    .error (.notADirectoryError ("Provided path is not a directory: " ++ vdses_dir))
  else do
    let vdses_paths ← validate_vds_paths fs (.str vdses_dir)
    if vdses_paths = [] then
      .error (.valueError ("No valid VDS directories found in " ++ vdses_dir))
    else
      .ok (union_all vdses_paths)

/-- A variant row of the MatrixTable read by `convert_mt_to_multi_sample_vcf`
after `hl.variant_qc` (`pygskit/gskit/converters.py`, line 116): the row key
and the computed `variant_qc.AC` array. -/
structure QcRow where
  key : Nat
  vqcAC : List Int
  deriving Repr, DecidableEq

/-- A variant row after the `annotate_rows` step of
`convert_mt_to_multi_sample_vcf` (lines 119-126): the row key with the
VCF-compatible `info.AC` field. -/
structure InfoRow where
  key : Nat
  infoAC : Int
  deriving Repr, DecidableEq

/-- The `info=hl.struct(... AC=mt.variant_qc.AC[1] ...)` row annotation of
`convert_mt_to_multi_sample_vcf`, restricted to the `AC` field the later
filter reads. -/
def annotate_info_row (r : QcRow) : InfoRow :=
  { key := r.key, infoAC := r.vqcAC.getD 1 0 }

/-- The row pipeline of `convert_mt_to_multi_sample_vcf`
(`pygskit/gskit/converters.py`, lines 113-132) from the variant-QC table to
the rows that reach the VCF export: annotate `info.AC`, then, only when
`min_ac >= 1`, keep exactly the rows with `info.AC >= min_ac`. -/
def convert_mt_to_multi_sample_vcf (rows : List QcRow) (min_ac : Int) :
    List InfoRow :=
  let annotated := rows.map annotate_info_row
  if 1 ≤ min_ac then
    annotated.filter (fun r => decide (min_ac ≤ r.infoAC))
  else
    annotated

/-- The externally visible events of a command run: the log line and Hail
teardown of the cleanup block, and the error logging of the exception
handler. -/
inductive Event where
  | logException
  | logStop
  | hailStop
  deriving Repr, DecidableEq

/-- The control-flow outcome of a Python block: normal return, a propagating
exception, or a propagating `SystemExit` with an exit status
(`sys.exit(code)`). -/
inductive PyFlow (α : Type) where
  | ret (a : α)
  | exn (e : PyError)
  | exit (code : Nat)
  deriving Repr, DecidableEq

/-- Python `try/except Exception/finally` semantics for a block described by
its emitted events and its outcome: on normal return the finally-block runs
and the value is returned; on an exception the handler runs, then the
finally-block, and the handler's outcome (for these commands, `SystemExit`)
propagates; a `SystemExit` from the body also runs the finally-block and
propagates. -/
def tryExceptFinally {α : Type} (body : List Event × PyFlow α)
    (handler : PyError → List Event × PyFlow α)
    (finEvents : List Event) : List Event × PyFlow α :=
  match body with
  | (evs, .ret a) => (evs ++ finEvents, .ret a)
  | (evs, .exn e) =>
    let h := handler e
    (evs ++ h.1 ++ finEvents, h.2)
  | (evs, .exit c) => (evs ++ finEvents, .exit c)

/-- `run_mts_combiner` from `pygskit/commands/mts_combiner.py`: the try
block (Hail init, listing the container directory, dispatch to the
row/column combiner) is abstracted as its events and outcome; the except
block logs the exception and calls `sys.exit(1)`; the finally block logs
and calls `hl.stop()`. -/
def run_mts_combiner (body : List Event × PyFlow Unit) :
    List Event × PyFlow Unit :=
  tryExceptFinally body
    (fun _ => ([Event.logException], PyFlow.exit 1))
    [Event.logStop, Event.hailStop]

/-- `run_gvcf_combiner` from `pygskit/commands/gvcf_combiner.py`: the same
try/except/finally structure as `run_mts_combiner` around the GVCF
combination body. -/
def run_gvcf_combiner (body : List Event × PyFlow Unit) :
    List Event × PyFlow Unit :=
  tryExceptFinally body
    (fun _ => ([Event.logException], PyFlow.exit 1))
    [Event.logStop, Event.hailStop]

/-- A path that passes all three checks of `check_path_exists_and_readable`. -/
def goodPath (fs : FileSystem) (p : String) : Prop :=
  fs.pathExists p = true ∧ (fs.isFile p || fs.isDir p) = true ∧ fs.readable p = true

instance (fs : FileSystem) (p : String) : Decidable (goodPath fs p) := by
  unfold goodPath; infer_instance

theorem check_path_ok {fs : FileSystem} {p : String} (h : goodPath fs p) :
    check_path_exists_and_readable fs p = .ok p := by
  obtain ⟨h1, h2, h3⟩ := h
  simp [check_path_exists_and_readable, h1, h2, h3]

/-- The paired index-file path computed by `validate_vcfs_paths`: drop the
GVCF extension and append the TBI extension. -/
def tbi_of (p : String) : String :=
  py_drop_right p GVCF_EXTENSION.length ++ GVCF_EXTENSION_TBI

/-- A GVCF input file that passes every check of the `validate_vcfs_paths`
loop: correct suffix, existing readable file, existing readable paired
index file. -/
def ValidGvcfInput (fs : FileSystem) (f : String) : Prop :=
  py_endswith (fs.abspath f) GVCF_EXTENSION = true ∧
  goodPath fs (fs.abspath f) ∧ goodPath fs (tbi_of (fs.abspath f))

instance (fs : FileSystem) (f : String) : Decidable (ValidGvcfInput fs f) := by
  unfold ValidGvcfInput; infer_instance

theorem validate_gvcf_file_ok {fs : FileSystem} {f : String}
    (h : ValidGvcfInput fs f) : validate_gvcf_file fs f = .ok (fs.abspath f) := by
  obtain ⟨h1, h2, h3⟩ := h
  rw [tbi_of] at h3
  simp [validate_gvcf_file, h1, check_path_ok h2, check_path_ok h3]
  rfl

theorem validate_gvcf_files_ok {fs : FileSystem} {l : List String}
    (h : ∀ f ∈ l, ValidGvcfInput fs f) :
    validate_gvcf_files fs l = .ok (l.map fs.abspath) := by
  induction l with
  | nil => rfl
  | cons f rest ih =>
    have hf := h f (by simp)
    have hrest := ih (fun g hg => h g (by simp [hg]))
    simp [validate_gvcf_files, validate_gvcf_file_ok hf, hrest]
    rfl

theorem validate_gvcf_files_append {fs : FileSystem} {pre l : List String}
    (h : ∀ f ∈ pre, ValidGvcfInput fs f) :
    validate_gvcf_files fs (pre ++ l) =
      (validate_gvcf_files fs l).map (fun ps => pre.map fs.abspath ++ ps) := by
  induction pre with
  | nil =>
    cases hres : validate_gvcf_files fs l <;> simp [Except.map, hres]
  | cons f rest ih =>
    have hf := h f (by simp)
    have hrest := ih (fun g hg => h g (by simp [hg]))
    cases hres : validate_gvcf_files fs l with
    | error e =>
      simp [validate_gvcf_files, validate_gvcf_file_ok hf, hrest, hres, Except.map]
      rfl
    | ok ps =>
      simp [validate_gvcf_files, validate_gvcf_file_ok hf, hrest, hres, Except.map]
      rfl

/-- C4: for every list of matrix tables and every reference index that is
not a valid position (negative or at least the length, hence every index on
the empty list), `sort_mts_cols` raises `IndexError` and produces no output
list. -/
theorem sort_mts_cols_out_of_range (mts : List MatrixTable) (ref_index : Int)
    (h : ref_index < 0 ∨ (mts.length : Int) ≤ ref_index) :
    sort_mts_cols mts ref_index =
      Except.error (PyError.indexError
        "ref_index is out of range for the provided list of matrix tables.") := by
  have hcond : ¬ (0 ≤ ref_index ∧ ref_index < (mts.length : Int)) := by omega
  simp [sort_mts_cols, hcond]

theorem sort_mts_cols_out_of_range_witness :
    sort_mts_cols [] 0 =
      Except.error (PyError.indexError
        "ref_index is out of range for the provided list of matrix tables.") :=
  sort_mts_cols_out_of_range [] 0 (by decide)

/-- C8: for every run of a command entry point (`run_mts_combiner`,
`run_gvcf_combiner`), whether the wrapped body returns normally or raises
any exception, the Hail teardown (`hl.stop()`) is executed in the
guaranteed-cleanup step, and on an exception the process exits with
status 1. -/
theorem run_combiners_teardown_and_exit :
    ∀ (evs : List Event) (e : PyError),
      Event.hailStop ∈ (run_mts_combiner (evs, PyFlow.ret ())).1 ∧
      (run_mts_combiner (evs, PyFlow.ret ())).2 = PyFlow.ret () ∧
      Event.hailStop ∈ (run_mts_combiner (evs, PyFlow.exn e)).1 ∧
      (run_mts_combiner (evs, PyFlow.exn e)).2 = PyFlow.exit 1 ∧
      Event.hailStop ∈ (run_gvcf_combiner (evs, PyFlow.ret ())).1 ∧
      (run_gvcf_combiner (evs, PyFlow.ret ())).2 = PyFlow.ret () ∧
      Event.hailStop ∈ (run_gvcf_combiner (evs, PyFlow.exn e)).1 ∧
      (run_gvcf_combiner (evs, PyFlow.exn e)).2 = PyFlow.exit 1 := by
  intro evs e
  refine ⟨?_, rfl, ?_, rfl, ?_, rfl, ?_, rfl⟩ <;>
    simp [run_mts_combiner, run_gvcf_combiner, tryExceptFinally]

/-- C6: in `convert_mt_to_multi_sample_vcf`, `min_ac = 0` disables the
allele-count row filter (every annotated row is retained), while
`min_ac ≥ 1` retains exactly the rows whose `info.AC` is at least
`min_ac`. -/
theorem convert_mt_to_multi_sample_vcf_min_ac (rows : List QcRow) (min_ac : Int) :
    (min_ac = 0 →
      convert_mt_to_multi_sample_vcf rows min_ac = rows.map annotate_info_row) ∧
    (1 ≤ min_ac →
      convert_mt_to_multi_sample_vcf rows min_ac =
        (rows.map annotate_info_row).filter (fun r => decide (min_ac ≤ r.infoAC)) ∧
      ∀ r : InfoRow, r ∈ convert_mt_to_multi_sample_vcf rows min_ac ↔
        (r ∈ rows.map annotate_info_row ∧ min_ac ≤ r.infoAC)) := by
  constructor
  · intro h
    subst h
    simp [convert_mt_to_multi_sample_vcf]
  · intro h
    refine ⟨by simp [convert_mt_to_multi_sample_vcf, h], ?_⟩
    intro r
    simp [convert_mt_to_multi_sample_vcf, h, List.mem_filter]

theorem convert_mt_to_multi_sample_vcf_min_ac_witness :
    convert_mt_to_multi_sample_vcf [⟨0, [5, 3]⟩, ⟨1, [4, 0]⟩] 1 = [⟨0, 3⟩] ∧
    convert_mt_to_multi_sample_vcf [⟨0, [5, 3]⟩, ⟨1, [4, 0]⟩] 0 = [⟨0, 3⟩, ⟨1, 0⟩] := by
  constructor
  · have h := (convert_mt_to_multi_sample_vcf_min_ac [⟨0, [5, 3]⟩, ⟨1, [4, 0]⟩] 1).2 (by decide)
    rw [h.1]; decide
  · have h := (convert_mt_to_multi_sample_vcf_min_ac [⟨0, [5, 3]⟩, ⟨1, [4, 0]⟩] 0).1 rfl
    rw [h]; decide

/-- C7: for every invocation of a combine operation with an empty input set
— `combine_gvcfs` with neither a GVCF directory nor existing VDS inputs, or
`combine_vdses` with a container directory holding no valid VDS directories
— a `ValueError` is raised; since the result is the same for every combiner
oracle, no external-framework combine work is performed. -/
theorem combine_empty_inputs_value_error :
    (∀ (α : Type) (fs : FileSystem) (run_combiner : List String → List String → α),
      combine_gvcfs fs run_combiner "" [] =
        Except.error (PyError.valueError
          "Either GVCF files or VDS files must be provided.")) ∧
    (∀ (α : Type) (fs : FileSystem) (union_all : List String → α)
        (vdses_dir : String),
      vdses_dir ≠ "" → fs.isDir vdses_dir = true →
      validate_vds_paths fs (.str vdses_dir) = .ok [] →
      ∃ m, combine_vdses fs union_all vdses_dir =
        Except.error (PyError.valueError m)) := by
  constructor
  · intro α fs run_combiner
    simp [combine_gvcfs]
  · intro α fs union_all vdses_dir hne hdir hval
    refine ⟨"No valid VDS directories found in " ++ vdses_dir, ?_⟩
    simp [combine_vdses, hne, hdir, hval]
    rfl

/-- A concrete file system whose container directory holds no entries at
all, so no valid VDS directory is found. -/
def fsEmptyContainer : FileSystem :=
  { pathExists := fun _ => true
    isFile := fun _ => false
    isDir := fun _ => true
    readable := fun _ => true
    glob := fun _ => []
    abspath := fun p => p
    listdir := fun _ => [] }

theorem combine_empty_inputs_value_error_witness :
    ∃ m, combine_vdses fsEmptyContainer (fun ps => ps.length) "container" =
      Except.error (PyError.valueError m) :=
  combine_empty_inputs_value_error.2 Nat fsEmptyContainer (fun ps => ps.length)
    "container" (by decide) rfl rfl

/-- C2: for every directory whose glob for the GVCF pattern yields exactly
`N` files, each with the expected suffix, existing, readable, and with an
existing readable paired index file, `validate_vcfs_paths` returns exactly
the `N` absolute paths of those files, each ending in the GVCF suffix. -/
theorem validate_vcfs_paths_all_valid (fs : FileSystem) (directory : String)
    (N : Nat)
    (hdir : fs.isDir directory = true)
    (hlen : (fs.glob (os_path_join directory ("*" ++ GVCF_EXTENSION))).length = N)
    (hvalid : ∀ f ∈ fs.glob (os_path_join directory ("*" ++ GVCF_EXTENSION)),
      ValidGvcfInput fs f) :
    ∃ out, validate_vcfs_paths fs directory none = .ok out ∧
      out.length = N ∧
      out = (fs.glob (os_path_join directory ("*" ++ GVCF_EXTENSION))).map fs.abspath ∧
      ∀ p ∈ out, py_endswith p GVCF_EXTENSION = true := by
  refine ⟨(fs.glob (os_path_join directory ("*" ++ GVCF_EXTENSION))).map fs.abspath,
    ?_, by simp [hlen], rfl, ?_⟩
  · simp [validate_vcfs_paths, hdir]
    exact validate_gvcf_files_ok hvalid
  · intro p hp
    obtain ⟨f, hf, rfl⟩ := List.mem_map.mp hp
    exact (hvalid f hf).1

/-- A concrete file system holding one valid GVCF file with its index. -/
def fsOneGvcf : FileSystem :=
  { pathExists := fun _ => true
    isFile := fun _ => true
    isDir := fun _ => true
    readable := fun _ => true
    glob := fun _ => ["sample1.g.vcf.gz"]
    abspath := fun p => "/data/" ++ p
    listdir := fun _ => [] }

theorem validate_vcfs_paths_all_valid_witness :
    ∃ out, validate_vcfs_paths fsOneGvcf "gvcfs" none = .ok out ∧
      out.length = 1 ∧
      out = (fsOneGvcf.glob (os_path_join "gvcfs" ("*" ++ GVCF_EXTENSION))).map
        fsOneGvcf.abspath ∧
      ∀ p ∈ out, py_endswith p GVCF_EXTENSION = true := by
  apply validate_vcfs_paths_all_valid fsOneGvcf "gvcfs" 1 rfl rfl
  intro f hf
  have : f = "sample1.g.vcf.gz" := by
    simpa [fsOneGvcf] using hf
  subst this
  decide

theorem validate_gvcf_files_first_error {fs : FileSystem} {pre rest : List String}
    {bad : String} {e : PyError}
    (hpre : ∀ f ∈ pre, ValidGvcfInput fs f)
    (hbad : validate_gvcf_file fs bad = .error e) :
    validate_gvcf_files fs (pre ++ bad :: rest) = .error e := by
  rw [validate_gvcf_files_append hpre]
  have : validate_gvcf_files fs (bad :: rest) = .error e := by
    simp [validate_gvcf_files, hbad]
    rfl
  rw [this]
  rfl

/-- C3: for every input file discovered by the glob that carries the wrong
suffix, or is unreadable, or is missing its paired index file (all files
before it being valid), `validate_vcfs_paths` raises the corresponding
error kind — `ValueError` for a wrong suffix, `PermissionError` for an
unreadable file, `FileNotFoundError` for a missing index file — and returns
no list at all. -/
theorem validate_vcfs_paths_invalid_input_errors (fs : FileSystem)
    (directory : String) (pre rest : List String) (bad : String)
    (hdir : fs.isDir directory = true)
    (hglob : fs.glob (os_path_join directory ("*" ++ GVCF_EXTENSION)) =
      pre ++ bad :: rest)
    (hpre : ∀ f ∈ pre, ValidGvcfInput fs f) :
    (py_endswith (fs.abspath bad) GVCF_EXTENSION = false →
      ∃ m, validate_vcfs_paths fs directory none =
        .error (PyError.valueError m)) ∧
    (py_endswith (fs.abspath bad) GVCF_EXTENSION = true →
      fs.pathExists (fs.abspath bad) = true →
      (fs.isFile (fs.abspath bad) || fs.isDir (fs.abspath bad)) = true →
      fs.readable (fs.abspath bad) = false →
      ∃ m, validate_vcfs_paths fs directory none =
        .error (PyError.permissionError m)) ∧
    (py_endswith (fs.abspath bad) GVCF_EXTENSION = true →
      goodPath fs (fs.abspath bad) →
      fs.pathExists (tbi_of (fs.abspath bad)) = false →
      ∃ m, validate_vcfs_paths fs directory none =
        .error (PyError.fileNotFoundError m)) := by
  have hred : validate_vcfs_paths fs directory none =
      validate_gvcf_files fs (pre ++ bad :: rest) := by
    simp [validate_vcfs_paths, hdir, hglob]
  refine ⟨?_, ?_, ?_⟩
  · intro hsuf
    refine ⟨"File does not end with " ++ GVCF_EXTENSION ++ ": " ++ fs.abspath bad, ?_⟩
    rw [hred]
    apply validate_gvcf_files_first_error hpre
    simp [validate_gvcf_file, hsuf]
  · intro hsuf hex hfd hrd
    refine ⟨"File or directory is not readable: " ++ fs.abspath bad, ?_⟩
    rw [hred]
    apply validate_gvcf_files_first_error hpre
    simp [validate_gvcf_file, hsuf, check_path_exists_and_readable, hex, hfd, hrd]
    rfl
  · intro hsuf hgood htbi
    refine ⟨"File or directory not found: " ++ tbi_of (fs.abspath bad), ?_⟩
    rw [hred]
    apply validate_gvcf_files_first_error hpre
    have hc2 : check_path_exists_and_readable fs (tbi_of (fs.abspath bad)) =
        .error (.fileNotFoundError
          ("File or directory not found: " ++ tbi_of (fs.abspath bad))) := by
      simp [check_path_exists_and_readable, htbi]
    rw [tbi_of] at hc2
    simp [validate_gvcf_file, hsuf, check_path_ok hgood, hc2]
    rfl

/-- A concrete file system whose glob discovers one valid GVCF file and then
a file with the wrong suffix. -/
def fsBadSuffix : FileSystem :=
  { pathExists := fun _ => true
    isFile := fun _ => true
    isDir := fun _ => true
    readable := fun _ => true
    glob := fun _ => ["ok.g.vcf.gz", "bad.txt"]
    abspath := fun p => "/data/" ++ p
    listdir := fun _ => [] }

theorem validate_vcfs_paths_invalid_input_errors_witness :
    ∃ m, validate_vcfs_paths fsBadSuffix "gvcfs" none =
      .error (PyError.valueError m) := by
  apply (validate_vcfs_paths_invalid_input_errors fsBadSuffix "gvcfs"
    ["ok.g.vcf.gz"] [] "bad.txt" rfl rfl ?_).1 (by decide)
  intro f hf
  have : f = "ok.g.vcf.gz" := by simpa [fsBadSuffix] using hf
  subst this
  decide

/-- A subdirectory entry of the VDS container that passes the readability
check and carries the VDS suffix. -/
def GoodVdsEntry (fs : FileSystem) (container entry : String) : Prop :=
  goodPath fs (os_path_join container entry) ∧
  py_endswith entry VDS_EXTENSION = true

instance (fs : FileSystem) (c e : String) : Decidable (GoodVdsEntry fs c e) := by
  unfold GoodVdsEntry; infer_instance

theorem validate_vds_entries_ok {fs : FileSystem} {c : String} {l : List String}
    (h : ∀ e ∈ l, fs.isDir (os_path_join c e) = true → GoodVdsEntry fs c e) :
    validate_vds_entries fs c l =
      .ok ((l.filter (fun e => fs.isDir (os_path_join c e))).map (os_path_join c)) := by
  induction l with
  | nil => rfl
  | cons e rest ih =>
    have hrest := ih (fun g hg => h g (by simp [hg]))
    cases hd : fs.isDir (os_path_join c e) with
    | false => simp [validate_vds_entries, hd, hrest, List.filter_cons]
    | true =>
      obtain ⟨hg, hs⟩ := h e (by simp) hd
      simp [validate_vds_entries, hd, check_path_ok hg, hs, hrest,
        List.filter_cons]
      rfl

theorem validate_vds_entries_first_bad {fs : FileSystem} {c : String}
    {pre rest : List String} {bad : String}
    (hpre : ∀ e ∈ pre, fs.isDir (os_path_join c e) = true → GoodVdsEntry fs c e)
    (hdirbad : fs.isDir (os_path_join c bad) = true)
    (hgoodbad : goodPath fs (os_path_join c bad))
    (hsuf : py_endswith bad VDS_EXTENSION = false) :
    validate_vds_entries fs c (pre ++ bad :: rest) =
      .error (.valueError
        ("Directory does not end with " ++ VDS_EXTENSION ++ ": " ++
          os_path_join c bad)) := by
  induction pre with
  | nil =>
    simp [validate_vds_entries, hdirbad, check_path_ok hgoodbad, hsuf]
    rfl
  | cons e prest ih =>
    have hrest := ih (fun g hg => hpre g (by simp [hg]))
    cases hd : fs.isDir (os_path_join c e) with
    | false => simpa [validate_vds_entries, hd] using hrest
    | true =>
      obtain ⟨hg, hs⟩ := hpre e (by simp) hd
      simp [validate_vds_entries, hd, check_path_ok hg, hs, hrest]
      rfl

/-- C10: on a container directory, `validate_vds_paths` silently skips the
entries that are not directories and returns exactly the subdirectory
entries (as full paths), each of which must end in the VDS suffix —
otherwise a `ValueError` is raised. -/
theorem validate_vds_paths_container_dir (fs : FileSystem) (vdses : String)
    (hdir : fs.isDir vdses = true) :
    ((∀ e ∈ fs.listdir vdses, fs.isDir (os_path_join vdses e) = true →
        GoodVdsEntry fs vdses e) →
      validate_vds_paths fs (.str vdses) =
        .ok (((fs.listdir vdses).filter
          (fun e => fs.isDir (os_path_join vdses e))).map (os_path_join vdses))) ∧
    (∀ pre bad rest, fs.listdir vdses = pre ++ bad :: rest →
      (∀ e ∈ pre, fs.isDir (os_path_join vdses e) = true →
        GoodVdsEntry fs vdses e) →
      fs.isDir (os_path_join vdses bad) = true →
      goodPath fs (os_path_join vdses bad) →
      py_endswith bad VDS_EXTENSION = false →
      ∃ m, validate_vds_paths fs (.str vdses) =
        .error (PyError.valueError m)) := by
  constructor
  · intro h
    simp [validate_vds_paths, hdir]
    exact validate_vds_entries_ok h
  · intro pre bad rest hsplit hpre hdirbad hgoodbad hsuf
    refine ⟨"Directory does not end with " ++ VDS_EXTENSION ++ ": " ++
      os_path_join vdses bad, ?_⟩
    simp [validate_vds_paths, hdir, hsplit]
    exact validate_vds_entries_first_bad hpre hdirbad hgoodbad hsuf

/-- A concrete container directory holding one VDS subdirectory and one
plain file. -/
def fsVdsContainer : FileSystem :=
  { pathExists := fun _ => true
    isFile := fun p => p == "c/notes.txt"
    isDir := fun p => p == "c" || p == "c/a.vds"
    readable := fun _ => true
    glob := fun _ => []
    abspath := fun p => p
    listdir := fun _ => ["a.vds", "notes.txt"] }

theorem validate_vds_paths_container_dir_witness :
    validate_vds_paths fsVdsContainer (.str "c") = .ok ["c/a.vds"] := by
  have h := (validate_vds_paths_container_dir fsVdsContainer "c" (by decide)).1
    (by decide)
  rw [h]
  congr 1

theorem pathUnder_append (dir r : List String) :
    pathUnder dir (dir ++ r) = true := by
  simp [pathUnder, List.take_left]

theorem os_path_relpath_append (dir r : List String) :
    os_path_relpath dir (dir ++ r) = r := by
  simp [os_path_relpath, List.drop_left]

/-- C9: compressing a directory tree and decompressing the archive into a
fresh target directory yields, below the target, exactly the original files
at the same source-relative paths with identical contents; with
`remove_originals = false` the compression leaves the tree untouched, and
every original file is still present after extraction. -/
theorem filter_map_under (l : List (List String × String)) (target : List String)
    (g : List String × String → List String × String)
    (hg : ∀ f, pathUnder target (g f).1 = true) :
    (l.map g).filter (fun f => pathUnder target f.1) = l.map g := by
  rw [List.filter_eq_self]
  intro a ha
  obtain ⟨f, _, rfl⟩ := List.mem_map.mp ha
  exact hg f

/-- C9: compressing a directory tree and decompressing the archive into a
fresh target directory yields, below the target, exactly the original files
at the same source-relative paths with identical contents; with
`remove_originals = false` the compression leaves the tree untouched, and
every original file is still present after extraction. -/
theorem compress_decompress_roundtrip (tree : FsTree) (src target : List String)
    (hfresh : ∀ f ∈ tree.files, pathUnder target f.1 = false) :
    (compress_files tree src false).2 = tree ∧
    (os_walk_files (decompress_files tree (compress_files tree src false).1 target)
        target).map (fun f => (os_path_relpath target f.1, f.2)) =
      (os_walk_files tree src).map (fun f => (os_path_relpath src f.1, f.2)) ∧
    ∀ f ∈ tree.files,
      f ∈ (decompress_files tree (compress_files tree src false).1 target).files := by
  refine ⟨rfl, ?_, ?_⟩
  · simp only [compress_files, decompress_files, os_walk_files]
    rw [List.filter_append]
    have h1 : tree.files.filter (fun f => pathUnder target f.1) = [] := by
      rw [List.filter_eq_nil_iff]
      intro a ha
      simp [hfresh a ha]
    rw [h1, List.nil_append]
    rw [filter_map_under _ target (fun e => (target ++ e.1, e.2))
      (by intro f; simp [pathUnder_append])]
    rw [List.map_map, List.map_map]
    apply List.map_congr_left
    intro f _
    simp [Function.comp, os_path_relpath_append]
  · intro f hf
    simp only [decompress_files]
    exact List.mem_append_left _ hf

/-- A concrete tree with one file under the source directory and one
unrelated file. -/
def treeC : FsTree := ⟨[(["s", "a"], "x"), (["o"], "y")]⟩

theorem compress_decompress_roundtrip_witness :
    (os_walk_files (decompress_files treeC (compress_files treeC ["s"] false).1 ["t"])
        ["t"]).map (fun f => (os_path_relpath ["t"] f.1, f.2)) =
      (os_walk_files treeC ["s"]).map (fun f => (os_path_relpath ["s"] f.1, f.2)) :=
  (compress_decompress_roundtrip treeC ["s"] ["t"] (by decide)).2.1

theorem pyEnumerateFrom_length {α : Type} (s : Nat) (l : List α) :
    (pyEnumerateFrom s l).length = l.length := by
  induction l generalizing s with
  | nil => rfl
  | cons a t ih => simp [pyEnumerateFrom, ih]

theorem pyEnumerateFrom_map_get? {α β : Type} (f : Nat × α → β) :
    ∀ (l : List α) (s i : Nat) (a : α), l.get? i = some a →
      ((pyEnumerateFrom s l).map f).get? i = some (f (s + i, a)) := by
  intro l
  induction l with
  | nil => intro s i a h; simp at h
  | cons x t ih =>
    intro s i a h
    cases i with
    | zero =>
      rw [List.get?_cons_zero] at h
      have hxa : x = a := Option.some_inj.mp h
      subst hxa
      simp [pyEnumerateFrom]
    | succ j =>
      rw [List.get?_cons_succ] at h
      have hj := ih (s + 1) j a h
      have harith : s + 1 + j = s + (j + 1) := by omega
      rw [harith] at hj
      simpa [pyEnumerateFrom] using hj

theorem getD_indexOf {l : List String} {k : String} (h : k ∈ l) :
    l.getD (l.indexOf k) "" = k := by
  induction l with
  | nil => cases h
  | cons a t ih =>
    by_cases hak : a = k
    · subst hak
      simp [List.indexOf_cons_self]
    · have hk : k ∈ t := by
        rcases List.mem_cons.mp h with h1 | h1
        · exact absurd h1.symm hak
        · exact h1
      rw [List.indexOf_cons_ne _ (fun hh => hak hh), List.getD_cons_succ]
      exact ih hk

theorem choose_cols_matches (mt ref : MatrixTable)
    (h : ∀ k ∈ ref.cols, k ∈ mt.cols) :
    (choose_cols mt (index_cols_col_idx_collect mt ref)).cols = ref.cols := by
  simp only [choose_cols, index_cols_col_idx_collect, List.map_map]
  conv_rhs => rw [← List.map_id ref.cols]
  apply List.map_congr_left
  intro k hk
  simp only [Function.comp, id]
  exact getD_indexOf (h k hk)

/-- C1: for every list of matrix tables whose elements all share the
reference table's column-key set, and every valid reference index,
`sort_mts_cols` returns a list of the same length whose element at the
reference index is the very table passed in, while every other element's
column order equals the reference table's column order position by
position. -/
theorem sort_mts_cols_matches_reference (mts : List MatrixTable)
    (ref_index : Int) (refT : MatrixTable)
    (h0 : 0 ≤ ref_index) (h1 : ref_index < (mts.length : Int))
    (href : mts.get? ref_index.toNat = some refT)
    (hshare : ∀ mt ∈ mts, ∀ k, k ∈ mt.cols ↔ k ∈ refT.cols) :
    ∃ out, sort_mts_cols mts ref_index = .ok out ∧
      out.length = mts.length ∧
      out.get? ref_index.toNat = some refT ∧
      ∀ i mt, out.get? i = some mt → (i : Int) ≠ ref_index →
        mt.cols = refT.cols := by
  have hcond : 0 ≤ ref_index ∧ ref_index < (mts.length : Int) := ⟨h0, h1⟩
  have hrefD : mts.getD ref_index.toNat default = refT := by
    have href2 : mts[ref_index.toNat]? = some refT := by
      rw [← List.get?_eq_getElem?]
      exact href
    simp [List.getD, href2]
  have htn : (ref_index.toNat : Int) = ref_index := Int.toNat_of_nonneg h0
  rw [sort_mts_cols, if_pos hcond, hrefD]
  refine ⟨_, rfl, ?_, ?_, ?_⟩
  · simp [pyEnumerateFrom_length]
  · rw [pyEnumerateFrom_map_get? _ mts 0 ref_index.toNat refT href]
    simp [htn]
  · intro i mt hget hne
    have hi : i < mts.length := by
      have hlen := List.get?_eq_some.mp hget
      obtain ⟨hlt, _⟩ := hlen
      simpa [pyEnumerateFrom_length] using hlt
    obtain ⟨a, ha⟩ : ∃ a, mts.get? i = some a := by
      rw [List.get?_eq_get hi]
      exact ⟨_, rfl⟩
    rw [pyEnumerateFrom_map_get? _ mts 0 i a ha] at hget
    have hmt : mt = if ((0 + i : Nat) : Int) = ref_index then a
        else choose_cols a (index_cols_col_idx_collect a refT) := by
      exact (Option.some_inj.mp hget).symm
    rw [Nat.zero_add] at hmt
    rw [if_neg (by exact_mod_cast hne)] at hmt
    subst hmt
    apply choose_cols_matches
    intro k hk
    exact (hshare a (List.get?_mem ha) k).mpr hk

/-- A matrix table with columns in the order a, b. -/
def mtA : MatrixTable := ⟨[], ["a", "b"], fun _ _ => 0⟩

/-- The same column-key set as `mtA`, listed in the opposite order. -/
def mtB : MatrixTable := ⟨[], ["b", "a"], fun _ _ => 0⟩

theorem sort_mts_cols_matches_reference_witness :
    ∃ out, sort_mts_cols [mtA, mtB] 0 = .ok out ∧
      out.length = [mtA, mtB].length ∧
      out.get? 0 = some mtA ∧
      ∀ i mt, out.get? i = some mt → (i : Int) ≠ 0 → mt.cols = mtA.cols := by
  apply sort_mts_cols_matches_reference [mtA, mtB] 0 mtA (by decide) (by decide) rfl
  intro mt hmt k
  rcases List.mem_cons.mp hmt with rfl | hmt2
  · exact Iff.rfl
  rcases List.mem_cons.mp hmt2 with rfl | h3
  · simp [mtA, mtB]
    tauto
  cases h3

/-- C5 (amended): for two tables with identical column-key lists,
`combine_matrix_table_rows` yields a table whose row count is the sum of the
inputs' row counts and whose column count is that of the inputs; for two
tables with identical row-key lists, `combine_matrix_table_cols` yields a
table whose column count is the sum of the inputs' column counts and whose
row count is unchanged. -/
theorem combine_matrix_tables_union_counts (read : String → MatrixTable)
    (p1 p2 : String) (n : Nat) (m1 m2 : MatrixTable)
    (h1 : read p1 = m1) (h2 : read p2 = m2) :
    (m1.cols = m2.cols →
      ∃ mt, combine_matrix_table_rows read [p1, p2] n = some mt ∧
        mt.rows.length = m1.rows.length + m2.rows.length ∧
        mt.cols.length = m1.cols.length) ∧
    (m1.rows = m2.rows →
      ∃ mt, combine_matrix_table_cols read [p1, p2] n = some mt ∧
        mt.cols.length = m1.cols.length + m2.cols.length ∧
        mt.rows.length = m1.rows.length) := by
  constructor
  · intro hc
    have hcomb : combine_matrix_table_rows read [p1, p2] n =
        some ⟨m1.rows ++ m2.rows, m1.cols,
          fun r c => if r ∈ m1.rows then m1.entries r c else m2.entries r c⟩ := by
      simp [combine_matrix_table_rows, h1, h2, union_rows, hc, repartition,
        List.foldlM, ite_self]
    exact ⟨_, hcomb, by simp, by simp⟩
  · intro hr
    have hfilter : m1.rows.filter (fun r => decide (r ∈ m2.rows)) = m1.rows := by
      rw [← hr, List.filter_eq_self]
      intro a ha
      simpa using ha
    have hcomb : combine_matrix_table_cols read [p1, p2] n =
        some ⟨m1.rows, m1.cols ++ m2.cols,
          fun r c => if c ∈ m1.cols then m1.entries r c else m2.entries r c⟩ := by
      simp [combine_matrix_table_cols, h1, h2, union_cols, hfilter, repartition,
        ite_self]
    exact ⟨_, hcomb, by simp, by simp⟩

/-- A table with one row keyed 0 and the single sample column s1. -/
def mtRows0 : MatrixTable := ⟨[0], ["s1"], fun _ _ => 0⟩

/-- A table with the same column-key set as `mtRows0` but a different row. -/
def mtRows1 : MatrixTable := ⟨[1], ["s1"], fun _ _ => 0⟩

/-- Reader delivering `mtRows0` at q1 and `mtRows1` at q2. -/
def readPairA : String → MatrixTable := fun p => if p = "q2" then mtRows1 else mtRows0

/-- A table with columns in the order s1, s2. -/
def mtOrd1 : MatrixTable := ⟨[0], ["s1", "s2"], fun _ _ => 0⟩

/-- The same column-key set as `mtOrd1`, listed in the opposite order. -/
def mtOrd2 : MatrixTable := ⟨[0], ["s2", "s1"], fun _ _ => 0⟩

/-- Reader delivering `mtOrd1` at r1 and `mtOrd2` at r2. -/
def readPairB : String → MatrixTable := fun p => if p = "r2" then mtOrd2 else mtOrd1

/-- C5 (counterexample): two tables with the identical column set {s1} but
different rows make the column-combine succeed with a 0-row dataset (the
external union-by-columns inner-joins rows on their keys), so the claimed
unchanged row count fails (0, not 1); and two tables sharing the column-key
set {s1, s2} in different orders make the row-combine produce no dataset
(the external union-by-rows requires identical column order) — so
"identical column sets" alone does not give the claimed counts. -/
theorem combine_matrix_tables_shared_col_set_cex :
    (mtRows0.cols = mtRows1.cols ∧
      Option.map (fun mt => mt.rows.length)
        (combine_matrix_table_cols readPairA ["q1", "q2"] 0) = some 0 ∧
      mtRows0.rows.length = 1 ∧ mtRows1.rows.length = 1) ∧
    ((∀ k ∈ mtOrd1.cols, k ∈ mtOrd2.cols) ∧ (∀ k ∈ mtOrd2.cols, k ∈ mtOrd1.cols) ∧
      combine_matrix_table_rows readPairB ["r1", "r2"] 0 = none) := by
  refine ⟨⟨rfl, rfl, rfl, rfl⟩, by decide, by decide, rfl⟩

/-- A table used for the witness of the amended combine-counts theorem. -/
def mtW1 : MatrixTable := ⟨[0, 1], ["s1"], fun _ _ => 0⟩

theorem combine_matrix_tables_union_counts_witness :
    (∃ mt, combine_matrix_table_rows (fun _ => mtW1) ["p1", "p2"] 0 = some mt ∧
      mt.rows.length = mtW1.rows.length + mtW1.rows.length ∧
      mt.cols.length = mtW1.cols.length) ∧
    (∃ mt, combine_matrix_table_cols (fun _ => mtW1) ["p1", "p2"] 0 = some mt ∧
      mt.cols.length = mtW1.cols.length + mtW1.cols.length ∧
      mt.rows.length = mtW1.rows.length) := by
  have h := combine_matrix_tables_union_counts (fun _ => mtW1) "p1" "p2" 0 mtW1 mtW1
    rfl rfl
  exact ⟨h.1 rfl, h.2 rfl⟩
